import Mathlib

/-!
Verification of the daily-precipitation GPM pipeline
(`daily_precipitation_gpm.py`), shallowly embedded in Lean 4.

The embedding follows the Python source:
* `getValuesDatatime` — the generator of 48 half-hour acquisition windows;
* `getNameImage` — pure formatting of a window descriptor into an image name;
* `getDS_Download` — download-and-cache resolution of one image, modelled as
  a pure function of an abstract world (file exists / network ok / raster ok)
  returning the result dictionary together with the list of side effects;
* `initTotals`, `stationsTotal`, `outputRows` — the per-day accumulation of
  station precipitation (`getTotalPrecipitation` and `saveCsv`), with the
  Python dict modelled as an insertion-ordered association list;
* `initModel`, `run` — the configuration/validation phase and the top-level
  driver, with external effects (date parsing, the liveness probe, file
  existence, float parsing of station rows) made explicit in the input
  environment and the emitted event trace.
-/

/-! ## Calendar and clock model (Python `datetime` restricted to what the
    source uses: whole-day and whole-second arithmetic). -/

structure Date where
  year : Nat
  month : Nat
  day : Nat
deriving DecidableEq, Repr

/-- Gregorian leap-year test, as in Python's `calendar`/`datetime`. -/
def isLeap (y : Nat) : Bool :=
  y % 4 == 0 && (y % 100 != 0 || y % 400 == 0)

/-- Days of a month in the Gregorian calendar. -/
def daysInMonth (y m : Nat) : Nat :=
  if m = 2 then (if isLeap y then 29 else 28)
  else if m = 4 ∨ m = 6 ∨ m = 9 ∨ m = 11 then 30
  else 31

/-- `d - timedelta(days=1)` on the date part. -/
def prevDay (d : Date) : Date :=
  if 2 ≤ d.day then ⟨d.year, d.month, d.day - 1⟩
  else if 2 ≤ d.month then ⟨d.year, d.month - 1, daysInMonth d.year (d.month - 1)⟩
  else ⟨d.year - 1, 12, 31⟩

/-- `d + timedelta(days=1)` on the date part. -/
def nextDay (d : Date) : Date :=
  if d.day < daysInMonth d.year d.month then ⟨d.year, d.month, d.day + 1⟩
  else if d.month < 12 then ⟨d.year, d.month + 1, 1⟩
  else ⟨d.year + 1, 1, 1⟩

/-- A valid proleptic-Gregorian date as accepted by Python `datetime`
    (year at least `MINYEAR = 1`). -/
def validDate (d : Date) : Prop :=
  1 ≤ d.year ∧ 1 ≤ d.month ∧ d.month ≤ 12 ∧ 1 ≤ d.day ∧ d.day ≤ daysInMonth d.year d.month

instance (d : Date) : Decidable (validDate d) := by
  unfold validDate; infer_instance

structure DateTime where
  date : Date
  hour : Nat
  minute : Nat
  second : Nat
deriving DecidableEq, Repr

def dateAddDays (d : Date) : Nat → Date
  | 0 => d
  | n + 1 => dateAddDays (nextDay d) n

/-- Seconds elapsed since the midnight starting `t`'s day. -/
def secOfDay (t : DateTime) : Nat :=
  3600 * t.hour + 60 * t.minute + t.second

/-- `t + timedelta(seconds=k)` (Python `datetime` addition, on whole
    seconds, rolling over days through the calendar). -/
def addSeconds (t : DateTime) (k : Nat) : DateTime :=
  let total := secOfDay t + k
  let r := total % 86400
  ⟨dateAddDays t.date (total / 86400), r / 3600, r % 3600 / 60, r % 60⟩

/-! ## `GpmDataset.getValuesDatatime` -/

/-- The dictionary yielded per half-hour window by `getValuesDatatime`. -/
structure ValueDatetime where
  year : Nat
  month : Nat
  day : Nat
  s_hour : Nat
  s_minute : Nat
  s_second : Nat
  e_hour : Nat
  e_minute : Nat
  e_second : Nat
  totalmin : Nat
deriving DecidableEq, Repr

/-- `GpmDataset.CONFIG_TIME['iniHourBefore']`. -/
def iniHourBefore : Nat := 12

/-- `GpmDataset.CONFIG_TIME['deltaStep']` in seconds (30 minutes). -/
def deltaStep : Nat := 1800

/-- `GpmDataset.IMAGES_DAY`. -/
def IMAGES_DAY : Nat := 48

/-- The loop body of `getValuesDatatime`: from the running start instant
    `s_dt`, build the yielded dictionary (`e_dt = s_dt + deltaStep - 1s`). -/
def windowOf (s : DateTime) : ValueDatetime :=
  let e := addSeconds s (deltaStep - 1)
  { year := s.date.year, month := s.date.month, day := s.date.day
    s_hour := s.hour, s_minute := s.minute, s_second := s.second
    e_hour := e.hour, e_minute := e.minute, e_second := e.second
    totalmin := s.hour * 60 + s.minute }

/-- The `for _i in range(IMAGES_DAY)` loop: yield a window, then advance
    the start instant by `deltaStep`. -/
def genWindows : Nat → DateTime → List ValueDatetime
  | 0, _ => []
  | n + 1, s => windowOf s :: genWindows n (addSeconds s deltaStep)

/-- `GpmDataset.getValuesDatatime`: the 48 windows of target date `d`,
    starting at 12:00:00 on the previous day. -/
def getValuesDatatime (d : Date) : List ValueDatetime :=
  genWindows IMAGES_DAY ⟨prevDay d, iniHourBefore, 0, 0⟩

/-- The start instant recorded in a yielded window. -/
def startDT (w : ValueDatetime) : DateTime :=
  ⟨⟨w.year, w.month, w.day⟩, w.s_hour, w.s_minute, w.s_second⟩

/-- The end instant recorded in a yielded window (the dictionary carries a
    single date, that of the start). -/
def endDT (w : ValueDatetime) : DateTime :=
  ⟨⟨w.year, w.month, w.day⟩, w.e_hour, w.e_minute, w.e_second⟩

/-! ## `GpmDataset.getNameImage` -/

/-- Python `'{:0w}'.format(n)` for natural `n`: decimal digits, left-padded
    with zeros to width `w`. -/
def pad (w n : Nat) : String :=
  let s := toString n
  if s.length < w then String.mk (List.replicate (w - s.length) '0') ++ s else s

/-- `GpmDataset.TYPE_IMAGE`. -/
def TYPE_IMAGE : String := "3B-HHR-GIS.MS.MRG.3IMERG"

/-- `GpmDataset.VERSION`. -/
def VERSION : Nat := 6

/-- `GpmDataset.getNameImage`: format
    `{type}.{day}-{start}-{end}.{totalmin}.{version}`. -/
def getNameImage (v : ValueDatetime) : String :=
  TYPE_IMAGE ++ "." ++ pad 4 v.year ++ pad 2 v.month ++ pad 2 v.day
    ++ "-S" ++ pad 2 v.s_hour ++ pad 2 v.s_minute ++ pad 2 v.s_second
    ++ "-E" ++ pad 2 v.e_hour ++ pad 2 v.e_minute ++ pad 2 v.e_second
    ++ "." ++ pad 4 v.totalmin ++ "." ++ "V" ++ pad 2 VERSION ++ "B"

/-! ## `GpmDataset._getDS_Download`

The raster library and the network are external; the resolver is modelled
as a pure function of an abstract world recording whether the local cache
file exists, whether the network operations succeed (no `URLError`), and
whether opening the file as a raster succeeds (no gdal `RuntimeError`).
Alongside the result dictionary it returns the ordered list of external
actions performed, so that claims about "no network activity" and file
deletion are statable. -/

inductive DLAction
  | urlopen
  | urlretrieve
  | gdalOpen
  | removeFile
deriving DecidableEq, Repr

/-- Failure messages of the resolver (the Python code formats them as
    strings carrying the url; only the kind and the url matter here). -/
inductive DLMsg
  | netError (url : String)
  | openError (url : String)
deriving DecidableEq, Repr

/-- The result dictionary of `_getDS_Download`: `isOk`, optional `message`,
    optional `dataset` (modelled by the local path it was opened from). -/
structure DSResult where
  isOk : Bool
  message : Option DLMsg
  dataset : Option String
deriving DecidableEq, Repr

structure DLWorld where
  fileExists : Bool
  netOk : Bool
  rasterOk : Bool
deriving DecidableEq, Repr

/-- `GpmDataset._getDS_Download`: if the local file does not exist, probe
    the url (`urlopen`) and fetch it (`urlretrieve`); then `gdal.Open` the
    local file.  A `URLError` returns a failure at once (nothing removed);
    a gdal `RuntimeError` removes the local file and returns a failure. -/
def getDS_Download (w : DLWorld) (url image : String) : DSResult × List DLAction :=
  if w.fileExists then
    if w.rasterOk then
      ({ isOk := true, message := none, dataset := some image }, [.gdalOpen])
    else
      ({ isOk := false, message := some (.openError url), dataset := none },
        [.gdalOpen, .removeFile])
  else
    if w.netOk then
      if w.rasterOk then
        ({ isOk := true, message := none, dataset := some image },
          [.urlopen, .urlretrieve, .gdalOpen])
      else
        ({ isOk := false, message := some (.openError url), dataset := none },
          [.urlopen, .urlretrieve, .gdalOpen, .removeFile])
    else
      ({ isOk := false, message := some (.netError url), dataset := none },
        [.urlopen])

/-! ## Stations and the per-day accumulation
    (`CalculateGpm`: `getTotalPrecipitation` inside `saveCsv`)

Sampled pixel values are modelled as rationals (the source rounds floats
to two decimals; exactness of the `÷ 20` conversion is the point at issue,
so `ℚ` is the right carrier).  A successfully resolved raster is modelled
by its sampling function `ℚ → ℚ → ℚ` (longitude, latitude ↦ value), the
abstraction of `DatasetValuePixel.getValue` on the opened dataset.  The
Python dict `stations_total` is an insertion-ordered association list. -/

structure Station where
  id : String
  lat : ℚ
  long : ℚ
deriving DecidableEq, Repr

abbrev Sampler := ℚ → ℚ → ℚ

/-- Python dict lookup `m[k]` (first — and only — entry with key `k`). -/
def dictLookup (m : List (String × ℚ)) (k : String) : Option ℚ :=
  match m with
  | [] => none
  | p :: t => if p.1 = k then some p.2 else dictLookup t k

/-- Python dict assignment `m[k] = v`: overwrite in place if the key is
    present, else append (insertion order preserved). -/
def dictAssign (m : List (String × ℚ)) (k : String) (v : ℚ) : List (String × ℚ) :=
  match m with
  | [] => [(k, v)]
  | p :: t => if p.1 = k then (k, v) :: t else p :: dictAssign t k v

/-- Python `m[k] += v` for a key known to be present: add to the matching
    entry (keys are unique in a dict, so at most one entry matches). -/
def dictAdd (m : List (String × ℚ)) (k : String) (v : ℚ) : List (String × ℚ) :=
  m.map (fun p => if p.1 = k then (p.1, p.2 + v) else p)

/-- `{ k['id']: 0 for k in self.stations }`. -/
def initTotals (stations : List Station) : List (String × ℚ) :=
  stations.foldl (fun acc st => dictAssign acc st.id 0) []

/-- `getStationsPrecipitations(source)`: sample every station against one
    opened raster, producing `(id, value)` pairs in station order
    (`dvp.getValue(station['long'], station['lat'])`). -/
def getStationsPrecipitations (stations : List Station) (sample : Sampler) :
    List (String × ℚ) :=
  stations.map (fun st => (st.id, sample st.long st.lat))

/-- The accumulation loop of `getTotalPrecipitation`:
    `for results in mapResult.get(): for k, v in results: stations_total[k] += v`,
    starting from the zero-initialized dict, over the successfully resolved
    sources of the day. -/
def stationsTotal (stations : List Station) (sources : List Sampler) :
    List (String × ℚ) :=
  sources.foldl
    (fun acc smp =>
      (getStationsPrecipitations stations smp).foldl
        (fun a p => dictAdd a p.1 p.2) acc)
    (initTotals stations)

/-- A day's 48 window resolutions: `some smp` when `getDataSet` succeeded
    (the opened raster's sampler), `none` when it failed (its message went
    to the error list).  `sources = r['sources']` keeps the successes. -/
def daySources (windows : List (Option Sampler)) : List Sampler :=
  windows.filterMap id

/-- `self.factor_mm_day = 20`. -/
def factor_mm_day : ℚ := 20

/-- The rows written per day by `saveCsv`:
    `( [ k, labelDate, v / self.factor_mm_day ] for k, v in r['stations_total'].items() )`. -/
def outputRows (label : String) (totals : List (String × ℚ)) :
    List (String × String × ℚ) :=
  totals.map (fun p => (p.1, label, p.2 / factor_mm_day))

/-! ## `CalculateGpm.init` and `run`

External effects are made explicit: the outcome of `strptime` on each date
string, the liveness probe's success, the existence of the station file,
and the station rows with their already-classified numeric fields (Python
`float` either yields a value or raises `ValueError`; a field is `none`
when it would raise).  `initModel` returns the trace of network events
next to the outcome, in the order the source performs them. -/

/-- One data row of the station csv (after the skipped header):
    `row[0]` and the outcomes of `float(row[1])`, `float(row[2])`. -/
structure Row where
  id : String
  latField : Option ℚ
  longField : Option ℚ
deriving DecidableEq, Repr

/-- One iteration of the `setStations` loop: `none` when `float` raises on
    either coordinate field. -/
def parseRow (r : Row) : Option Station :=
  match r.latField, r.longField with
  | some la, some lo => some ⟨r.id, la, lo⟩
  | _, _ => none

/-- `setStations`: parse the rows in order, aborting at the first
    `ValueError` (modelled by `none`). -/
def parseStations (rows : List Row) : Option (List Station) :=
  rows.mapM parseRow

/-- `self.dateIni > self.dateEnd` (datetimes at midnight compare as their
    dates, lexicographically). -/
def dateLtb (a b : Date) : Bool :=
  a.year < b.year ||
    (a.year == b.year &&
      (a.month < b.month || (a.month == b.month && a.day < b.day)))

/-- Network events performed during `init` (the liveness probe is the only
    network operation before `saveCsv`). -/
inductive Ev
  | netProbe
deriving DecidableEq, Repr

/-- The diagnostic messages `init` can return (string payloads elided). -/
inductive Msg
  | noValidDateIni
  | noValidDateEnd
  | iniAfterEnd
  | hostUnreachable
  | missingFile
deriving DecidableEq, Repr

inductive InitOut
  | ok (stations : List Station)
  | err (m : Msg)
  | exn
deriving DecidableEq, Repr

/-- The environment `init` runs in. -/
structure InitEnv where
  dateIni : Option Date
  dateEnd : Option Date
  live : Bool
  fileExists : Bool
  rows : List Row
deriving DecidableEq, Repr

/-- `CalculateGpm.init`, in source order: parse the two dates, compare
    them, run the liveness probe, check the csv file exists, then parse the
    station rows (whose `float` failures escape as an exception). -/
def initModel (env : InitEnv) : List Ev × InitOut :=
  match env.dateIni with
  | none => ([], .err .noValidDateIni)
  | some di =>
    match env.dateEnd with
    | none => ([], .err .noValidDateEnd)
    | some de =>
      if dateLtb de di then ([], .err .iniAfterEnd)
      else if !env.live then ([.netProbe], .err .hostUnreachable)
      else if !env.fileExists then ([.netProbe], .err .missingFile)
      else
        match parseStations env.rows with
        | some sts => ([.netProbe], .ok sts)
        | none => ([.netProbe], .exn)

/-- What `run` produced: the value returned to `sys.exit`, the diagnostic
    printed (if any), and whether `saveCsv` was reached. -/
structure RunOut where
  exitCode : Nat
  printed : Option Msg
  savedCsv : Bool
deriving DecidableEq, Repr

/-- `run(...)`: on an `init` failure print the message and return 0;
    otherwise run `saveCsv` and return 0.  An exception escaping `init`
    (malformed station row) is uncaught: no return value (`none`). -/
def run (env : InitEnv) : Option RunOut :=
  match initModel env with
  | (_, .err m) => some ⟨0, some m, false⟩
  | (_, .ok _) => some ⟨0, none, true⟩
  | (_, .exn) => none

/-! ## Theorems -/

/-- C2: `getNameImage` is a pure function of the window descriptor, and on
    the literal input year 2017, month 2, day 27, start 01:30:00, end
    01:59:59, totalmin 90 (fixed product type and version 6) it returns
    exactly `3B-HHR-GIS.MS.MRG.3IMERG.20170227-S013000-E015959.0090.V06B`,
    with all the required zero-padded field widths. -/
theorem getNameImage_literal_2017 :
    getNameImage ⟨2017, 2, 27, 1, 30, 0, 1, 59, 59, 90⟩ =
      "3B-HHR-GIS.MS.MRG.3IMERG.20170227-S013000-E015959.0090.V06B" := rfl

/-- C6: in download-and-cache mode with no cached file present, a fetched
    file that cannot be opened as a raster is deleted and a failure result
    (message, no dataset) is returned; a network failure (`URLError`)
    returns a failure result after a single `urlopen`, with no retry, no
    retrieve and no deletion. -/
theorem getDS_Download_failure_handling (url image : String) (rOk : Bool) :
    (getDS_Download ⟨false, true, false⟩ url image =
      ({ isOk := false, message := some (.openError url), dataset := none },
        [.urlopen, .urlretrieve, .gdalOpen, .removeFile])) ∧
    (getDS_Download ⟨false, false, rOk⟩ url image =
      ({ isOk := false, message := some (.netError url), dataset := none },
        [.urlopen])) := by
  constructor <;> simp [getDS_Download]

/-- C7: when the cached file already exists, resolution performs no
    network action (no `urlopen`, no `urlretrieve`) whatever the raster
    outcome, and its result does not depend on the network state or the
    url: a readable cache entry is opened locally, identically on a
    re-run. -/
theorem getDS_Download_cache_hit (url1 url2 image : String) (n1 n2 rOk : Bool) :
    (getDS_Download ⟨true, n1, true⟩ url1 image =
      ({ isOk := true, message := none, dataset := some image }, [.gdalOpen])) ∧
    DLAction.urlopen ∉ (getDS_Download ⟨true, n1, rOk⟩ url1 image).2 ∧
    DLAction.urlretrieve ∉ (getDS_Download ⟨true, n1, rOk⟩ url1 image).2 ∧
    getDS_Download ⟨true, n1, true⟩ url1 image =
      getDS_Download ⟨true, n2, true⟩ url2 image := by
  cases rOk <;> simp [getDS_Download]

/-- C9: when the cached file already exists and opening it as a raster
    fails, the file is removed even though it was never downloaded during
    this run (no `urlretrieve` ever happened — the existence check skipped
    the download). -/
theorem getDS_Download_removes_preexisting_cache (url image : String) (n : Bool) :
    getDS_Download ⟨true, n, false⟩ url image =
      ({ isOk := false, message := some (.openError url), dataset := none },
        [.gdalOpen, .removeFile]) ∧
    DLAction.removeFile ∈ (getDS_Download ⟨true, n, false⟩ url image).2 ∧
    DLAction.urlretrieve ∉ (getDS_Download ⟨true, n, false⟩ url image).2 := by
  simp [getDS_Download]

/-- C5 fails as stated: with valid, ordered dates and a live host but a
    missing input file, `init` reports the missing-file configuration
    error only after performing the liveness probe, so network activity
    precedes the diagnostic. -/
theorem init_missing_file_after_probe_counterexample :
    (initModel ⟨some ⟨2020, 1, 1⟩, some ⟨2020, 1, 2⟩, true, false, []⟩).2 =
      .err .missingFile ∧
    Ev.netProbe ∈
      (initModel ⟨some ⟨2020, 1, 1⟩, some ⟨2020, 1, 2⟩, true, false, []⟩).1 := by
  exact ⟨rfl, by decide⟩

/-- C5 amended: with parseable, ordered dates and a live host, the
    missing-input-file error is reported only after the liveness probe has
    run, and a malformed station row (a coordinate `float` fails) raises
    an uncaught exception after the probe instead of a pre-network
    diagnostic. -/
theorem init_config_errors_after_probe (di de : Date) (rows : List Row)
    (hord : dateLtb de di = false) (hbad : parseStations rows = none) :
    initModel ⟨some di, some de, true, false, rows⟩ =
      ([.netProbe], .err .missingFile) ∧
    initModel ⟨some di, some de, true, true, rows⟩ = ([.netProbe], .exn) := by
  constructor <;> simp [initModel, hord, hbad]

/-- Witness for `init_config_errors_after_probe` at concrete dates and a
    concrete malformed row. -/
theorem init_config_errors_after_probe_witness :
    dateLtb ⟨2020, 1, 2⟩ ⟨2020, 1, 1⟩ = false ∧
    parseStations [⟨"s1", none, some 1⟩] = none ∧
    (initModel ⟨some ⟨2020, 1, 1⟩, some ⟨2020, 1, 2⟩, true, false,
        [⟨"s1", none, some 1⟩]⟩ = ([.netProbe], .err .missingFile) ∧
      initModel ⟨some ⟨2020, 1, 1⟩, some ⟨2020, 1, 2⟩, true, true,
        [⟨"s1", none, some 1⟩]⟩ = ([.netProbe], .exn)) :=
  ⟨rfl, rfl, init_config_errors_after_probe _ _ _ rfl rfl⟩

/-- C10: whenever `init` fails with a diagnostic (invalid date format,
    start date after end date, liveness-probe failure, or missing input
    file), `run` prints the message and returns 0, so the process exit
    status is 0 although `saveCsv` was never reached. -/
theorem run_returns_zero_on_init_error (env : InitEnv) (m : Msg)
    (h : (initModel env).2 = .err m) :
    run env = some ⟨0, some m, false⟩ := by
  unfold run
  rcases he : initModel env with ⟨tr, out⟩
  rw [he] at h
  cases out with
  | ok s => simp at h
  | err m2 => simp at h; subst h; rfl
  | exn => simp at h

/-- Witness for `run_returns_zero_on_init_error`: an unparseable initial
    date. -/
theorem run_returns_zero_on_init_error_witness :
    (initModel ⟨none, some ⟨2020, 1, 2⟩, true, true, []⟩).2 =
      .err .noValidDateIni ∧
    run ⟨none, some ⟨2020, 1, 2⟩, true, true, []⟩ =
      some ⟨0, some .noValidDateIni, false⟩ :=
  ⟨rfl, run_returns_zero_on_init_error _ _ rfl⟩

theorem dictLookup_dictAdd (m : List (String × ℚ)) (kk k : String) (v : ℚ) :
    dictLookup (dictAdd m kk v) k =
      if kk = k then (dictLookup m k).map (· + v) else dictLookup m k := by
  induction m with
  | nil => simp [dictAdd, dictLookup]
  | cons p t ih =>
    by_cases h1 : p.1 = kk <;> by_cases h2 : p.1 = k
    · have hkk : kk = k := h1.symm.trans h2
      simp [dictAdd, dictLookup, h1, h2, hkk] at ih ⊢
    · have hkk : ¬ kk = k := fun hc => h2 (h1.trans hc)
      simp [dictAdd, dictLookup, h1, h2, hkk] at ih ⊢
      exact ih
    · have hkk : ¬ kk = k := fun hc => h1 (h2.trans hc.symm)
      simp [dictAdd, dictLookup, h1, h2, hkk] at ih ⊢
      rw [if_neg (fun hc : k = kk => hkk hc.symm)]
      simp [h2]
    · simp [dictAdd, dictLookup, h1, h2] at ih ⊢
      exact ih

theorem dictLookup_foldl_dictAdd (pairs acc : List (String × ℚ))
    (k : String) (x : ℚ) (h : dictLookup acc k = some x) :
    dictLookup (pairs.foldl (fun a p => dictAdd a p.1 p.2) acc) k =
      some (x + ((pairs.filter (fun p => p.1 == k)).map Prod.snd).sum) := by
  induction pairs generalizing acc x with
  | nil => simpa using h
  | cons p t ih =>
    simp only [List.foldl_cons, List.filter_cons]
    by_cases hp : p.1 = k
    · have h2 : dictLookup (dictAdd acc p.1 p.2) k = some (x + p.2) := by
        rw [dictLookup_dictAdd, if_pos hp, h]; rfl
      rw [ih _ _ h2]
      simp [hp, add_assoc]
    · have h2 : dictLookup (dictAdd acc p.1 p.2) k = some x := by
        rw [dictLookup_dictAdd, if_neg hp]; exact h
      rw [ih _ _ h2]
      simp [hp]

theorem filter_pairs_nil (t : List Station) (f : Sampler) (k : String)
    (h : ∀ s ∈ t, s.id ≠ k) :
    (getStationsPrecipitations t f).filter (fun p => p.1 == k) = [] := by
  induction t with
  | nil => rfl
  | cons s r ih =>
    simp only [getStationsPrecipitations, List.map_cons, List.filter_cons]
    rw [if_neg (by simpa using h s (List.mem_cons_self s r))]
    exact ih (fun a ha => h a (List.mem_cons_of_mem s ha))

theorem filter_station_pairs (stations : List Station) (f : Sampler) (st : Station)
    (hnd : (stations.map Station.id).Nodup) (hmem : st ∈ stations) :
    (getStationsPrecipitations stations f).filter (fun p => p.1 == st.id) =
      [(st.id, f st.long st.lat)] := by
  induction stations with
  | nil => cases hmem
  | cons s t ih =>
    simp only [List.map_cons, List.nodup_cons] at hnd
    rcases List.mem_cons.mp hmem with rfl | hm
    · simp only [getStationsPrecipitations, List.map_cons, List.filter_cons]
      rw [if_pos (by simp)]
      have hnil := filter_pairs_nil t f st.id
        (fun a ha hc => hnd.1 (hc ▸ List.mem_map_of_mem Station.id ha))
      simp only [getStationsPrecipitations] at hnil
      rw [hnil]
    · have hne : ¬ s.id = st.id := fun hc =>
        hnd.1 (hc ▸ List.mem_map_of_mem Station.id hm)
      simp only [getStationsPrecipitations, List.map_cons, List.filter_cons]
      rw [if_neg (by simpa using hne)]
      have := ih hnd.2 hm
      simp only [getStationsPrecipitations] at this
      exact this

theorem dictLookup_dictAssign (m : List (String × ℚ)) (k k2 : String) (v : ℚ) :
    dictLookup (dictAssign m k v) k2 =
      if k = k2 then some v else dictLookup m k2 := by
  induction m with
  | nil => simp [dictAssign, dictLookup]
  | cons p t ih =>
    simp only [dictAssign]
    by_cases h1 : p.1 = k
    · rw [if_pos h1]
      by_cases h2 : k = k2
      · subst h2
        simp [dictLookup]
      · have h3 : ¬ p.1 = k2 := fun hc => h2 (h1.symm.trans hc)
        simp [dictLookup, h2, h3]
    · rw [if_neg h1]
      by_cases h2 : k = k2
      · subst h2
        simp [dictLookup, h1, ih]
      · simp [dictLookup, h2, ih]

theorem dictLookup_initTotals_aux (stations : List Station)
    (m : List (String × ℚ)) (st : Station)
    (h : dictLookup m st.id = some 0 ∨ st ∈ stations) :
    dictLookup (stations.foldl (fun acc s => dictAssign acc s.id 0) m) st.id =
      some 0 := by
  induction stations generalizing m with
  | nil =>
    rcases h with hl | hm
    · simpa using hl
    · cases hm
  | cons s t ih =>
    simp only [List.foldl_cons]
    apply ih
    by_cases hk : s.id = st.id
    · left; rw [dictLookup_dictAssign, if_pos hk]
    · rcases h with hl | hm
      · left; rw [dictLookup_dictAssign, if_neg hk]; exact hl
      · rcases List.mem_cons.mp hm with rfl | hm2
        · exact absurd rfl hk
        · right; exact hm2

theorem dictLookup_initTotals (stations : List Station) (st : Station)
    (hmem : st ∈ stations) :
    dictLookup (initTotals stations) st.id = some 0 :=
  dictLookup_initTotals_aux stations [] st (Or.inr hmem)

theorem dictLookup_foldl_sources (sources : List Sampler)
    (stations : List Station) (st : Station)
    (hnd : (stations.map Station.id).Nodup) (hmem : st ∈ stations)
    (acc : List (String × ℚ)) (x : ℚ) (h : dictLookup acc st.id = some x) :
    dictLookup
      (sources.foldl
        (fun acc smp =>
          (getStationsPrecipitations stations smp).foldl
            (fun a p => dictAdd a p.1 p.2) acc)
        acc) st.id =
      some (x + (sources.map (fun f => f st.long st.lat)).sum) := by
  induction sources generalizing acc x with
  | nil => simpa using h
  | cons f t ih =>
    simp only [List.foldl_cons]
    have h1 := dictLookup_foldl_dictAdd (getStationsPrecipitations stations f)
      acc st.id x h
    rw [filter_station_pairs stations f st hnd hmem] at h1
    simp only [List.map_cons, List.map_nil, List.sum_cons, List.sum_nil,
      add_zero] at h1 ⊢
    rw [ih _ _ h1, add_assoc]

theorem dictLookup_stationsTotal (stations : List Station)
    (sources : List Sampler) (st : Station)
    (hnd : (stations.map Station.id).Nodup) (hmem : st ∈ stations) :
    dictLookup (stationsTotal stations sources) st.id =
      some ((sources.map (fun f => f st.long st.lat)).sum) := by
  have := dictLookup_foldl_sources sources stations st hnd hmem
    (initTotals stations) 0 (dictLookup_initTotals stations st hmem)
  simpa [stationsTotal] using this

theorem dictLookup_mem (m : List (String × ℚ)) (k : String) (v : ℚ)
    (h : dictLookup m k = some v) : (k, v) ∈ m := by
  induction m with
  | nil => simp [dictLookup] at h
  | cons p t ih =>
    by_cases hp : p.1 = k
    · rw [dictLookup, if_pos hp] at h
      have hv : p.2 = v := Option.some.inj h
      exact List.mem_cons.mpr (Or.inl (Prod.ext hp hv).symm)
    · rw [dictLookup, if_neg hp] at h
      exact List.mem_cons_of_mem p (ih h)

theorem dictLookup_append_none (m m2 : List (String × ℚ)) (k : String)
    (h : dictLookup m k = none) :
    dictLookup (m ++ m2) k = dictLookup m2 k := by
  induction m with
  | nil => rfl
  | cons p t ih =>
    by_cases hp : p.1 = k
    · rw [dictLookup, if_pos hp] at h; cases h
    · rw [dictLookup, if_neg hp] at h
      rw [List.cons_append, dictLookup, if_neg hp]
      exact ih h

theorem dictAssign_notmem (m : List (String × ℚ)) (k : String) (v : ℚ)
    (h : dictLookup m k = none) :
    dictAssign m k v = m ++ [(k, v)] := by
  induction m with
  | nil => rfl
  | cons p t ih =>
    by_cases hp : p.1 = k
    · rw [dictLookup, if_pos hp] at h; cases h
    · rw [dictLookup, if_neg hp] at h
      simp only [dictAssign, if_neg hp, List.cons_append]
      rw [ih h]

theorem foldl_dictAssign_append (stations : List Station)
    (m : List (String × ℚ))
    (hm : ∀ s ∈ stations, dictLookup m s.id = none)
    (hnd : (stations.map Station.id).Nodup) :
    stations.foldl (fun acc s => dictAssign acc s.id 0) m =
      m ++ stations.map (fun s => (s.id, (0 : ℚ))) := by
  induction stations generalizing m with
  | nil => simp
  | cons s t ih =>
    simp only [List.map_cons, List.nodup_cons] at hnd
    simp only [List.foldl_cons, List.map_cons]
    rw [dictAssign_notmem m s.id 0 (hm s (List.mem_cons_self s t))]
    rw [ih (m ++ [(s.id, 0)]) ?_ hnd.2]
    · simp
    · intro a ha
      rw [dictLookup_append_none _ _ _ (hm a (List.mem_cons_of_mem s ha))]
      have hne : ¬ s.id = a.id := fun hc =>
        hnd.1 (hc ▸ List.mem_map_of_mem Station.id ha)
      simp [dictLookup, fun hc : s.id = a.id => hne hc]

theorem initTotals_eq_map (stations : List Station)
    (hnd : (stations.map Station.id).Nodup) :
    initTotals stations = stations.map (fun s => (s.id, (0 : ℚ))) := by
  have := foldl_dictAssign_append stations [] (fun s _ => rfl) hnd
  simpa [initTotals] using this

/-- C3: for every station (ids pairwise distinct) and any combination of
    successful and failed windows, the per-day total for that station is
    the sum of its sampled values over the successfully resolved windows,
    and the emitted row carries exactly that sum divided by the fixed
    conversion factor 20; failed windows contribute nothing. -/
theorem emitted_value_eq_sum_div_factor (stations : List Station)
    (windows : List (Option Sampler)) (lbl : String) (st : Station)
    (hnd : (stations.map Station.id).Nodup) (hmem : st ∈ stations) :
    dictLookup (stationsTotal stations (daySources windows)) st.id =
      some (((daySources windows).map (fun f => f st.long st.lat)).sum) ∧
    (st.id, lbl,
        ((daySources windows).map (fun f => f st.long st.lat)).sum /
          factor_mm_day) ∈
      outputRows lbl (stationsTotal stations (daySources windows)) := by
  have h1 := dictLookup_stationsTotal stations (daySources windows) st hnd hmem
  refine ⟨h1, ?_⟩
  have h2 := dictLookup_mem _ _ _ h1
  exact List.mem_map.mpr ⟨_, h2, rfl⟩

/-- Witness for `emitted_value_eq_sum_div_factor`: two stations, one
    failed and one successful window. -/
theorem emitted_value_eq_sum_div_factor_witness :
    (([⟨"a", 1, 2⟩, ⟨"b", 3, 4⟩] : List Station).map Station.id).Nodup ∧
    (⟨"a", 1, 2⟩ : Station) ∈ ([⟨"a", 1, 2⟩, ⟨"b", 3, 4⟩] : List Station) ∧
    (dictLookup
        (stationsTotal [⟨"a", 1, 2⟩, ⟨"b", 3, 4⟩]
          (daySources [none, some (fun x y => x + y)]))
        (Station.id ⟨"a", 1, 2⟩) =
      some (((daySources [none, some (fun x y => x + y)]).map
          (fun f => f (Station.long ⟨"a", 1, 2⟩) (Station.lat ⟨"a", 1, 2⟩))).sum) ∧
      (Station.id ⟨"a", 1, 2⟩, "2020-01-01",
          ((daySources [none, some (fun x y => x + y)]).map
            (fun f => f (Station.long ⟨"a", 1, 2⟩) (Station.lat ⟨"a", 1, 2⟩))).sum /
            factor_mm_day) ∈
        outputRows "2020-01-01"
          (stationsTotal [⟨"a", 1, 2⟩, ⟨"b", 3, 4⟩]
            (daySources [none, some (fun x y => x + y)]))) :=
  ⟨by decide, by decide,
    emitted_value_eq_sum_div_factor _ _ _ _ (by decide) (by decide)⟩

/-- C4: when all of a day's windows fail to resolve, the totals dict still
    holds one zero entry per loaded station, and one output row per
    station is still emitted, each with value 0. -/
theorem all_windows_failed_zero_rows (stations : List Station)
    (windows : List (Option Sampler)) (lbl : String)
    (hall : ∀ w ∈ windows, w = none)
    (hnd : (stations.map Station.id).Nodup) :
    stationsTotal stations (daySources windows) =
      stations.map (fun s => (s.id, (0 : ℚ))) ∧
    (∀ st ∈ stations,
      dictLookup (stationsTotal stations (daySources windows)) st.id =
        some 0) ∧
    outputRows lbl (stationsTotal stations (daySources windows)) =
      stations.map (fun s => (s.id, lbl, (0 : ℚ))) := by
  have hsrc : daySources windows = [] := by
    simp only [daySources]
    exact List.filterMap_eq_nil_iff.mpr (fun a ha => by rw [hall a ha]; rfl)
  rw [hsrc]
  have htot : stationsTotal stations [] =
      stations.map (fun s => (s.id, (0 : ℚ))) := by
    simp only [stationsTotal, List.foldl_nil]
    exact initTotals_eq_map stations hnd
  refine ⟨htot, ?_, ?_⟩
  · intro st hst
    simp only [stationsTotal, List.foldl_nil]
    exact dictLookup_initTotals stations st hst
  · rw [htot]
    simp [outputRows, List.map_map, Function.comp]

/-- Witness for `all_windows_failed_zero_rows`: one station, two failed
    windows. -/
theorem all_windows_failed_zero_rows_witness :
    (∀ w ∈ ([none, none] : List (Option Sampler)), w = none) ∧
    (([⟨"a", 1, 2⟩] : List Station).map Station.id).Nodup ∧
    (stationsTotal [⟨"a", 1, 2⟩] (daySources [none, none]) =
        ([⟨"a", 1, 2⟩] : List Station).map (fun s => (s.id, (0 : ℚ))) ∧
      (∀ st ∈ ([⟨"a", 1, 2⟩] : List Station),
        dictLookup (stationsTotal [⟨"a", 1, 2⟩] (daySources [none, none]))
          st.id = some 0) ∧
      outputRows "2020-01-01"
          (stationsTotal [⟨"a", 1, 2⟩] (daySources [none, none])) =
        ([⟨"a", 1, 2⟩] : List Station).map
          (fun s => (s.id, "2020-01-01", (0 : ℚ)))) :=
  ⟨(by
      intro w hw
      rcases List.mem_cons.mp hw with rfl | hw2
      · rfl
      rcases List.mem_cons.mp hw2 with rfl | hw3
      · rfl
      cases hw3),
    by decide,
    all_windows_failed_zero_rows _ _ _
      (by
        intro w hw
        rcases List.mem_cons.mp hw with rfl | hw2
        · rfl
        rcases List.mem_cons.mp hw2 with rfl | hw3
        · rfl
        cases hw3)
      (by decide)⟩

theorem duplicate_ids_fold_aux (a b : Station) (h : a.id = b.id)
    (ws : List Sampler) (x : ℚ) :
    ws.foldl
      (fun acc smp =>
        (getStationsPrecipitations [a, b] smp).foldl
          (fun q p => dictAdd q p.1 p.2) acc)
      [(a.id, x)] =
      [(a.id, x + (ws.map (fun f => f a.long a.lat + f b.long b.lat)).sum)] := by
  induction ws generalizing x with
  | nil => simp
  | cons f t ih =>
    rw [List.foldl_cons]
    have hinner :
        (getStationsPrecipitations [a, b] f).foldl
          (fun q p => dictAdd q p.1 p.2) [(a.id, x)] =
        [(a.id, x + (f a.long a.lat + f b.long b.lat))] := by
      simp [getStationsPrecipitations, dictAdd, ← h, add_assoc]
    rw [hinner, ih]
    simp [add_assoc]

/-- C8: two station rows sharing one id produce a single dict entry, into
    which both rows' sampled values are accumulated, so exactly one output
    row is emitted for that id, carrying the combined sum divided by 20. -/
theorem duplicate_station_ids_combined (a b : Station) (h : a.id = b.id)
    (ws : List Sampler) (lbl : String) :
    stationsTotal [a, b] ws =
      [(a.id, (ws.map (fun f => f a.long a.lat + f b.long b.lat)).sum)] ∧
    outputRows lbl (stationsTotal [a, b] ws) =
      [(a.id, lbl,
        (ws.map (fun f => f a.long a.lat + f b.long b.lat)).sum /
          factor_mm_day)] := by
  have hinit : initTotals [a, b] = [(a.id, (0 : ℚ))] := by
    simp [initTotals, dictAssign, ← h]
  have htot : stationsTotal [a, b] ws =
      [(a.id, (ws.map (fun f => f a.long a.lat + f b.long b.lat)).sum)] := by
    simp only [stationsTotal, hinit]
    rw [duplicate_ids_fold_aux a b h ws 0, zero_add]
  exact ⟨htot, by rw [htot]; rfl⟩

/-- Witness for `duplicate_station_ids_combined`: two rows with id `"a"`
    and one window sampling the longitude coordinate. -/
theorem duplicate_station_ids_combined_witness :
    (Station.id ⟨"a", 1, 2⟩ = Station.id ⟨"a", 3, 4⟩) ∧
    (stationsTotal [⟨"a", 1, 2⟩, ⟨"a", 3, 4⟩] [fun x _ => x] =
        [(Station.id ⟨"a", 1, 2⟩,
          (([fun x _ => x] : List Sampler).map
            (fun f => f (Station.long ⟨"a", 1, 2⟩) (Station.lat ⟨"a", 1, 2⟩) +
              f (Station.long ⟨"a", 3, 4⟩) (Station.lat ⟨"a", 3, 4⟩))).sum)] ∧
      outputRows "2020-01-01"
          (stationsTotal [⟨"a", 1, 2⟩, ⟨"a", 3, 4⟩] [fun x _ => x]) =
        [(Station.id ⟨"a", 1, 2⟩, "2020-01-01",
          (([fun x _ => x] : List Sampler).map
            (fun f => f (Station.long ⟨"a", 1, 2⟩) (Station.lat ⟨"a", 1, 2⟩) +
              f (Station.long ⟨"a", 3, 4⟩) (Station.lat ⟨"a", 3, 4⟩))).sum /
            factor_mm_day)]) :=
  ⟨rfl, duplicate_station_ids_combined ⟨"a", 1, 2⟩ ⟨"a", 3, 4⟩ rfl
    [fun x _ => x] "2020-01-01"⟩

theorem daysInMonth_pos (y m : Nat) : 1 ≤ daysInMonth y m := by
  unfold daysInMonth
  split_ifs <;> omega

theorem daysInMonth_twelve (y : Nat) : daysInMonth y 12 = 31 := rfl

theorem nextDay_prevDay (d : Date) (hd : validDate d) : nextDay (prevDay d) = d := by
  obtain ⟨hy, hm1, hm2, hd1, hd2⟩ := hd
  rcases d with ⟨y, m, day⟩
  simp only at hy hm1 hm2 hd1 hd2
  unfold prevDay
  by_cases h1 : 2 ≤ day
  · rw [if_pos h1]
    unfold nextDay
    simp only
    rw [if_pos (by omega)]
    congr 1
    omega
  · rw [if_neg h1]
    by_cases h2 : 2 ≤ m
    · rw [if_pos h2]
      unfold nextDay
      simp only
      rw [if_neg (by omega), if_pos (by omega)]
      congr 1 <;> omega
    · rw [if_neg h2]
      unfold nextDay
      simp only [daysInMonth_twelve]
      rw [if_neg (by omega), if_neg (by omega)]
      congr 1 <;> omega

theorem secOfDay_addSeconds (t : DateTime) (k : Nat) :
    secOfDay (addSeconds t k) = (secOfDay t + k) % 86400 := by
  simp only [addSeconds, secOfDay]
  omega

theorem dateAddDays_add (d : Date) (a b : Nat) :
    dateAddDays d (a + b) = dateAddDays (dateAddDays d a) b := by
  induction a generalizing d with
  | zero => rw [Nat.zero_add]; rfl
  | succ n ih =>
    have h1 : n + 1 + b = (n + b) + 1 := by omega
    rw [h1]
    show dateAddDays (nextDay d) (n + b) = _
    rw [ih (nextDay d)]
    rfl

theorem addSeconds_addSeconds (t : DateTime) (a b : Nat) :
    addSeconds (addSeconds t a) b = addSeconds t (a + b) := by
  simp only [addSeconds, secOfDay, DateTime.mk.injEq]
  refine ⟨?_, by omega, by omega, by omega⟩
  rw [← dateAddDays_add]
  congr 1
  omega

/-- A normalized clock: what Python `datetime` components always satisfy. -/
def wfDT (t : DateTime) : Prop :=
  t.hour < 24 ∧ t.minute < 60 ∧ t.second < 60

theorem addSeconds_zero (t : DateTime) (h : wfDT t) : addSeconds t 0 = t := by
  obtain ⟨h1, h2, h3⟩ := h
  rcases t with ⟨dt, hh, mm, ss⟩
  simp only at h1 h2 h3
  simp only [addSeconds, secOfDay, DateTime.mk.injEq]
  have h0 : (3600 * hh + 60 * mm + ss + 0) / 86400 = 0 := by omega
  refine ⟨?_, by omega, by omega, by omega⟩
  rw [h0]
  rfl

theorem wf_addSeconds (t : DateTime) (k : Nat) : wfDT (addSeconds t k) := by
  simp only [wfDT, addSeconds]
  refine ⟨by omega, by omega, by omega⟩

theorem genWindows_eq_map (n : Nat) : ∀ (s : DateTime), wfDT s →
    genWindows n s =
      (List.range n).map (fun i => windowOf (addSeconds s (1800 * i))) := by
  induction n with
  | zero => intro s _; rfl
  | succ m ih =>
    intro s hs
    rw [List.range_succ_eq_map, List.map_cons, List.map_map]
    show windowOf s :: genWindows m (addSeconds s deltaStep) = _
    rw [ih (addSeconds s deltaStep) (wf_addSeconds s deltaStep)]
    congr 1
    · rw [Nat.mul_zero, addSeconds_zero s hs]
    · apply List.map_congr_left
      intro i _
      show windowOf (addSeconds (addSeconds s deltaStep) (1800 * i)) =
        windowOf (addSeconds s (1800 * (i + 1)))
      rw [addSeconds_addSeconds]
      have harg : deltaStep + 1800 * i = 1800 * (i + 1) := by
        simp only [deltaStep]
        omega
      rw [harg]

theorem getValuesDatatime_eq_map (d : Date) :
    getValuesDatatime d =
      (List.range 48).map
        (fun i => windowOf (addSeconds ⟨prevDay d, 12, 0, 0⟩ (1800 * i))) := by
  have h := genWindows_eq_map 48 ⟨prevDay d, 12, 0, 0⟩ (by simp [wfDT])
  exact h

theorem startDT_windowOf (s : DateTime) : startDT (windowOf s) = s := rfl

theorem addSeconds_date_eq (s : DateTime) (k : Nat) (h : secOfDay s + k < 86400) :
    (addSeconds s k).date = s.date := by
  simp only [addSeconds]
  have h0 : (secOfDay s + k) / 86400 = 0 := Nat.div_eq_of_lt h
  rw [h0]
  rfl

theorem dateAddDays_zero (dd : Date) : dateAddDays dd 0 = dd := rfl

theorem dateAddDays_one (dd : Date) : dateAddDays dd 1 = nextDay dd := rfl

theorem endDT_windowOf (s : DateTime) (h : secOfDay s + 1799 < 86400) :
    endDT (windowOf s) = addSeconds s 1799 := by
  have hd := addSeconds_date_eq s 1799 h
  rcases hE : addSeconds s 1799 with ⟨ed, eh, em, es⟩
  rw [hE] at hd
  simp only at hd
  subst hd
  show (⟨⟨s.date.year, s.date.month, s.date.day⟩, _, _, _⟩ : DateTime) = _
  have h1799 : deltaStep - 1 = 1799 := rfl
  simp only [windowOf, h1799, hE]

/-- C1: for every (valid) target date, `getValuesDatatime` yields exactly
    48 windows, the first starting at 12:00:00 on the day before, the last
    ending at 11:59:59 on the target date, consecutive windows contiguous
    (each start is the previous start plus 30 minutes) and each window's
    end its own start plus 30 minutes minus one second — no gap, no
    overlap. -/
theorem window_sequence_of_day (d : Date) (hd : validDate d) :
    (getValuesDatatime d).length = 48 ∧
    ((getValuesDatatime d).head?).map startDT =
      some ⟨prevDay d, 12, 0, 0⟩ ∧
    ((getValuesDatatime d).getLast?).map endDT = some ⟨d, 11, 59, 59⟩ ∧
    (∀ i : Nat, i + 1 < 48 →
      ((getValuesDatatime d)[i + 1]?).map startDT =
        (((getValuesDatatime d)[i]?).map startDT).map
          (fun t => addSeconds t 1800)) ∧
    (∀ i : Nat, i < 48 →
      ((getValuesDatatime d)[i]?).map endDT =
        (((getValuesDatatime d)[i]?).map startDT).map
          (fun t => addSeconds t 1799)) := by
  have hmap := getValuesDatatime_eq_map d
  have hwf0 : wfDT ⟨prevDay d, 12, 0, 0⟩ := by simp [wfDT]
  have hsec0 : secOfDay ⟨prevDay d, 12, 0, 0⟩ = 43200 := rfl
  refine ⟨?_, ?_, ?_, ?_, ?_⟩
  · rw [hmap]
    simp
  · rw [hmap, List.head?_map]
    have hh : (List.range 48).head? = some 0 := by decide
    rw [hh]
    simp only [Option.map_some']
    rw [startDT_windowOf, Nat.mul_zero, addSeconds_zero _ hwf0]
  · rw [hmap, List.getLast?_eq_getElem?]
    simp only [List.length_map, List.length_range]
    rw [List.getElem?_map, List.getElem?_range (by omega : 48 - 1 < 48)]
    simp only [Option.map_some']
    have h47 : addSeconds ⟨prevDay d, 12, 0, 0⟩ (1800 * (48 - 1)) =
        ⟨nextDay (prevDay d), 11, 30, 0⟩ := by
      simp only [addSeconds, secOfDay, DateTime.mk.injEq]
      norm_num
      rw [dateAddDays_one]
    rw [h47, endDT_windowOf _ (by simp [secOfDay]), nextDay_prevDay d hd]
    have hfin : addSeconds ⟨d, 11, 30, 0⟩ 1799 = ⟨d, 11, 59, 59⟩ := by
      simp only [addSeconds, secOfDay, DateTime.mk.injEq]
      norm_num
      rw [dateAddDays_zero]
    rw [hfin]
  · intro i hi
    rw [hmap]
    rw [List.getElem?_map, List.getElem?_map, List.getElem?_range hi,
      List.getElem?_range (by omega : i < 48)]
    simp only [Option.map_some']
    rw [startDT_windowOf, startDT_windowOf, addSeconds_addSeconds,
      show 1800 * i + 1800 = 1800 * (i + 1) from by omega]
  · intro i hi
    rw [hmap]
    rw [List.getElem?_map, List.getElem?_range hi]
    simp only [Option.map_some']
    rw [startDT_windowOf, endDT_windowOf]
    rw [secOfDay_addSeconds, hsec0]
    omega

/-- Witness for `window_sequence_of_day`: the target date 2020-03-01
    (whose previous day is the leap day 2020-02-29). -/
theorem window_sequence_of_day_witness :
    validDate ⟨2020, 3, 1⟩ ∧
    ((getValuesDatatime ⟨2020, 3, 1⟩).length = 48 ∧
      ((getValuesDatatime ⟨2020, 3, 1⟩).head?).map startDT =
        some ⟨prevDay ⟨2020, 3, 1⟩, 12, 0, 0⟩ ∧
      ((getValuesDatatime ⟨2020, 3, 1⟩).getLast?).map endDT =
        some ⟨⟨2020, 3, 1⟩, 11, 59, 59⟩ ∧
      (∀ i : Nat, i + 1 < 48 →
        ((getValuesDatatime ⟨2020, 3, 1⟩)[i + 1]?).map startDT =
          (((getValuesDatatime ⟨2020, 3, 1⟩)[i]?).map startDT).map
            (fun t => addSeconds t 1800)) ∧
      (∀ i : Nat, i < 48 →
        ((getValuesDatatime ⟨2020, 3, 1⟩)[i]?).map endDT =
          (((getValuesDatatime ⟨2020, 3, 1⟩)[i]?).map startDT).map
            (fun t => addSeconds t 1799))) :=
  ⟨by decide, window_sequence_of_day ⟨2020, 3, 1⟩ (by decide)⟩
